import Mathlib

/-!
Shallow embedding of the todo-rs terminal task manager (src/main.rs).

Rust `String`s are modelled as `List Char`; operations that panic in Rust
(`assert!`, `expect`, out-of-bounds `swap`) return `Option`/`Except`, where
`none` / `.error` stands for the aborted process (`InvalidState` in the
spec's taxonomy). File I/O is modelled by passing the file's character
contents explicitly.
-/

namespace TodoRs

abbrev Title := List Char

/-- 2D integer vector (`struct Vec2` in main.rs). -/
structure Vec2 where
  x : Int
  y : Int
deriving DecidableEq, Repr

/-- `impl Add for Vec2`. -/
def Vec2.add (a b : Vec2) : Vec2 :=
  ⟨a.x + b.x, a.y + b.y⟩

/-- `impl Mul for Vec2` (component-wise). -/
def Vec2.mul (a b : Vec2) : Vec2 :=
  ⟨a.x * b.x, a.y * b.y⟩

/-- `Vec2::new`. -/
def Vec2.new (x y : Int) : Vec2 :=
  ⟨x, y⟩

/-- `enum LayoutKind`. -/
inductive LayoutKind where
  | Vert
  | Horz
deriving DecidableEq, Repr

/-- `struct Layout`. -/
structure Layout where
  kind : LayoutKind
  pos : Vec2
  size : Vec2
deriving DecidableEq, Repr

/-- `Layout::available_pos`. -/
def Layout.available_pos (l : Layout) : Vec2 :=
  match l.kind with
  | .Horz => l.pos.add (l.size.mul (Vec2.new 1 0))
  | .Vert => l.pos.add (l.size.mul (Vec2.new 0 1))

/-- `Layout::add_widget`. -/
def Layout.add_widget (l : Layout) (size : Vec2) : Layout :=
  match l.kind with
  | .Horz => { l with size := ⟨l.size.x + size.x, max l.size.y size.y⟩ }
  | .Vert => { l with size := ⟨max l.size.x size.x, l.size.y + size.y⟩ }

/-- `struct Ui`: the layout stack. The head of `layouts` is the top of the
stack (the last element of the Rust `Vec`). -/
structure Ui where
  layouts : List Layout
deriving DecidableEq, Repr

/-- `Ui::begin`: `assert!(self.layouts.is_empty())` then push the root;
`none` models the failed assertion (panic). -/
def Ui.begin (ui : Ui) (pos : Vec2) (kind : LayoutKind) : Option Ui :=
  if ui.layouts.isEmpty then
    some ⟨{ kind := kind, pos := pos, size := Vec2.new 0 0 } :: ui.layouts⟩
  else
    none

/-- `Ui::begin_layout`: `expect`s a top layout, computes the child origin
from its `available_pos`, pushes the child. -/
def Ui.begin_layout (ui : Ui) (kind : LayoutKind) : Option Ui :=
  match ui.layouts with
  | [] => none
  | top :: _ =>
    some ⟨{ kind := kind, pos := top.available_pos, size := Vec2.new 0 0 } :: ui.layouts⟩

/-- `Ui::end_layout`: pops the top layout and folds its size into the new
top via `add_widget`; both `expect`s fail (`none`) unless at least two
layouts are on the stack. -/
def Ui.end_layout (ui : Ui) : Option Ui :=
  match ui.layouts with
  | top :: next :: rest => some ⟨next.add_widget top.size :: rest⟩
  | _ => none

/-- `Ui::label_fixed_width`: `expect`s a top layout; the drawing calls are
external side effects, the state change is `add_widget((width, 1))`. -/
def Ui.label_fixed_width (ui : Ui) (_text : Title) (width : Int) : Option Ui :=
  match ui.layouts with
  | [] => none
  | top :: rest => some ⟨top.add_widget (Vec2.new width 1) :: rest⟩

/-- `Ui::end`: pops the top layout, `expect`ing a non-empty stack (`end` is
a Lean keyword, hence the name `endFrame`). Note the source only checks
non-emptiness: it pops whatever layout is on top. -/
def Ui.endFrame (ui : Ui) : Option Ui :=
  match ui.layouts with
  | [] => none
  | _ :: rest => some ⟨rest⟩

/-- One call in a layout-stack call sequence. -/
inductive UiOp where
  | opBegin (pos : Vec2) (kind : LayoutKind)
  | opBeginLayout (kind : LayoutKind)
  | opLabel (text : Title) (width : Int)
  | opEndLayout
  | opEnd
deriving DecidableEq, Repr

/-- Apply one layout-stack call. -/
def applyOp (ui : Ui) : UiOp → Option Ui
  | .opBegin pos kind => ui.begin pos kind
  | .opBeginLayout kind => ui.begin_layout kind
  | .opLabel text width => ui.label_fixed_width text width
  | .opEndLayout => ui.end_layout
  | .opEnd => ui.endFrame

/-- Run a sequence of layout-stack calls; `none` as soon as one panics. -/
def runOps : List UiOp → Ui → Option Ui
  | [], ui => some ui
  | op :: rest, ui => (applyOp ui op).bind (runOps rest)

/-- The balanced frame sequence of C2: one `begin`, `m` nested
`begin_layout`s (of arbitrary kinds), `k` labels (with arbitrary texts and
widths), `m` `end_layout`s, one `end`. -/
def balancedOps (pos : Vec2) (kind : LayoutKind) (kinds : List LayoutKind)
    (labels : List (Title × Int)) : List UiOp :=
  [UiOp.opBegin pos kind]
    ++ kinds.map UiOp.opBeginLayout
    ++ labels.map (fun lw => UiOp.opLabel lw.1 lw.2)
    ++ List.replicate kinds.length UiOp.opEndLayout
    ++ [UiOp.opEnd]

/-- The same sequence with the leading `begin` missing. -/
def noBeginOps (kinds : List LayoutKind) (labels : List (Title × Int)) : List UiOp :=
  kinds.map UiOp.opBeginLayout
    ++ labels.map (fun lw => UiOp.opLabel lw.1 lw.2)
    ++ List.replicate kinds.length UiOp.opEndLayout
    ++ [UiOp.opEnd]

/-- A fresh `Ui` (`Ui::default()`): an empty layout stack. -/
def uiDefault : Ui :=
  ⟨[]⟩

/-- C1 counterexample state: the stack reached by `begin` then
`begin_layout` on a fresh `Ui`; it holds two layouts. -/
def uiTwoLayouts : Ui :=
  ⟨[{ kind := LayoutKind.Horz, pos := Vec2.new 0 0, size := Vec2.new 0 0 },
    { kind := LayoutKind.Vert, pos := Vec2.new 0 0, size := Vec2.new 0 0 }]⟩

/-- `enum Status`. -/
inductive Status where
  | Todo
  | Done
deriving DecidableEq, Repr

/-- `Status::toggle`. -/
def Status.toggle : Status → Status
  | .Todo => .Done
  | .Done => .Todo

/-- `fn list_up`: `if *list_curr > 0 { *list_curr -= 1 }`. -/
def list_up (list_curr : Nat) : Nat :=
  if list_curr > 0 then list_curr - 1 else list_curr

/-- `fn list_down`: `if *list_curr + 1 < list.len() { *list_curr += 1 }`. -/
def list_down (list : List Title) (list_curr : Nat) : Nat :=
  if list_curr + 1 < list.length then list_curr + 1 else list_curr

/-- `fn list_first`: `if *list_curr > 0 { *list_curr = 0 }`. -/
def list_first (list_curr : Nat) : Nat :=
  if list_curr > 0 then 0 else list_curr

/-- `fn list_last`: `if !list.is_empty() { *list_curr = list.len() - 1 }`. -/
def list_last (list : List Title) (list_curr : Nat) : Nat :=
  if list.isEmpty then list_curr else list.length - 1

/-- `<[T]>::swap(i, j)` for in-bounds `i`, `j`: write `l[j]` at `i` and
`l[i]` at `j`. (All call sites below guard the indices; the out-of-bounds
panic is modelled at those call sites.) -/
def listSwap (l : List Title) (i j : Nat) : List Title :=
  (l.set i (l.getD j [])).set j (l.getD i [])

/-- `fn list_drag_up`: when the cursor is positive, swap it with the item
above and move it up; `slice::swap` panics (`none`) if the cursor is out of
bounds. -/
def list_drag_up (list : List Title) (list_curr : Nat) : Option (List Title × Nat) :=
  if list_curr > 0 then
    if list_curr < list.length then
      some (listSwap list list_curr (list_curr - 1), list_curr - 1)
    else
      none
  else
    some (list, list_curr)

/-- `fn list_drag_down`: when an item exists below the cursor, swap with it
and move the cursor down; the guard keeps both indices in bounds, so this
never panics. -/
def list_drag_down (list : List Title) (list_curr : Nat) : Option (List Title × Nat) :=
  if list_curr + 1 < list.length then
    some (listSwap list list_curr (list_curr + 1), list_curr + 1)
  else
    some (list, list_curr)

/-- `fn list_transfer`: remove the item under the source cursor, push it at
the end of the destination, reclamp the source cursor. Returns
`(list_dst, list_src, list_src_curr)` after the call. -/
def list_transfer (list_dst list_src : List Title) (list_src_curr : Nat) :
    List Title × List Title × Nat :=
  if h : list_src_curr < list_src.length then
    let item := list_src.get ⟨list_src_curr, h⟩
    let src' := list_src.eraseIdx list_src_curr
    let curr' :=
      if list_src_curr ≥ src'.length ∧ ¬ src'.isEmpty then src'.length - 1
      else list_src_curr
    (list_dst ++ [item], src', curr')
  else
    (list_dst, list_src, list_src_curr)

/-- `fn list_delete`: remove the item under the cursor, reclamp the cursor. -/
def list_delete (list : List Title) (list_curr : Nat) : List Title × Nat :=
  if list_curr < list.length then
    let l' := list.eraseIdx list_curr
    (l', if list_curr ≥ l'.length ∧ ¬ l'.isEmpty then l'.length - 1 else list_curr)
  else
    (list, list_curr)

/-- The `"TODO: "` prefix. -/
def todoPrefixChars : List Char :=
  ['T', 'O', 'D', 'O', ':', ' ']

/-- The `"DONE: "` prefix. -/
def donePrefixChars : List Char :=
  ['D', 'O', 'N', 'E', ':', ' ']

/-- `str::strip_prefix` on character lists. -/
def dropPfx : List Char → List Char → Option (List Char)
  | [], s => some s
  | _ :: _, [] => none
  | p :: ps, c :: cs => if c = p then dropPfx ps cs else none

/-- `fn parse_item`: try the `"TODO: "` prefix, then the `"DONE: "` prefix. -/
def parse_item (line : List Char) : Option (Status × List Char) :=
  (Option.map (fun t => (Status.Todo, t)) (dropPfx todoPrefixChars line)).or
    (Option.map (fun t => (Status.Done, t)) (dropPfx donePrefixChars line))

/-- Split a character stream at `'\n'` bytes, one entry per line, no entry
after a trailing `'\n'` (first half of `BufRead::lines`). -/
def splitNewlines : List Char → List (List Char)
  | [] => []
  | c :: cs =>
    if c = '\n' then
      [] :: splitNewlines cs
    else
      match splitNewlines cs with
      | [] => [[c]]
      | l :: ls => (c :: l) :: ls

/-- `BufRead::lines` also strips a `'\r'` directly before the `'\n'`
(CRLF handling). -/
def stripCR (line : List Char) : List Char :=
  if line.getLast? = some '\r' then line.dropLast else line

/-- The lines `BufRead::lines` yields for a file's contents. -/
def linesOf (file : List Char) : List (List Char) :=
  (splitNewlines file).map stripCR

deriving instance DecidableEq for Except

/-- The fatal load failure: `eprintln!("{}:{}: ERROR: ill-formed item line",
file_path, index + 1)` followed by `process::exit(1)`, carrying the file
path and the 1-based line number it reports. -/
inductive LoadError where
  | illFormed (file_path : List Char) (lineno : Nat)
deriving DecidableEq, Repr

/-- The loop of `fn load_state` over the enumerated lines: push parsed
titles onto the accumulators, abort on the first ill-formed line. -/
def loadLines (file_path : List Char) :
    List (List Char) → Nat → List Title → List Title → Except LoadError (List Title × List Title)
  | [], _, todos, dones => .ok (todos, dones)
  | line :: rest, index, todos, dones =>
    match parse_item line with
    | some (.Todo, title) => loadLines file_path rest (index + 1) (todos ++ [title]) dones
    | some (.Done, title) => loadLines file_path rest (index + 1) todos (dones ++ [title])
    | none => .error (.illFormed file_path (index + 1))

/-- `fn load_state`, with the opened file's contents passed explicitly;
`todos` and `dones` are the caller's accumulators (empty in `main`). -/
def load_state (todos dones : List Title) (file_path : List Char) (file : List Char) :
    Except LoadError (List Title × List Title) :=
  loadLines file_path (linesOf file) 0 todos dones

/-- `fn save_state`: the file contents written — every todo line first,
then every done line, each `writeln!` appending a `'\n'`. -/
def save_state (todos dones : List Title) : List Char :=
  (todos.map (fun t => todoPrefixChars ++ t ++ ['\n'])).flatten
    ++ (dones.map (fun t => donePrefixChars ++ t ++ ['\n'])).flatten

/-- ncurses `KEY_LEFT`. -/
def KEY_LEFT : Int := 260

/-- ncurses `KEY_RIGHT`. -/
def KEY_RIGHT : Int := 261

/-- ncurses `KEY_BACKSPACE`. -/
def KEY_BACKSPACE : Int := 263

/-- ncurses `KEY_DC` (delete-forward). -/
def KEY_DC : Int := 330

/-- `Ui::edit_field`'s state machine on `(buffer, cursor, key_current)`:
clamp the cursor into the buffer, then consume at most one key event;
drawing is an external side effect. Returns the new buffer, cursor, and
whatever key was left unconsumed. -/
def edit_field (buffer : List Char) (cursor : Nat) (key_current : Option Int) :
    List Char × Nat × Option Int :=
  let cursor := min cursor buffer.length
  match key_current with
  | none => (buffer, cursor, none)
  | some key =>
    if 32 ≤ key ∧ key ≤ 126 then
      let c : Char := Char.ofNat key.toNat
      let buffer' :=
        if cursor ≥ buffer.length then buffer ++ [c] else buffer.insertIdx cursor c
      (buffer', cursor + 1, none)
    else if key = KEY_LEFT then
      (buffer, if cursor > 0 then cursor - 1 else cursor, none)
    else if key = KEY_RIGHT then
      (buffer, if cursor < buffer.length then cursor + 1 else cursor, none)
    else if key = KEY_BACKSPACE then
      if cursor > 0 then
        let cursor := cursor - 1
        (if cursor < buffer.length then buffer.eraseIdx cursor else buffer, cursor, none)
      else
        (buffer, cursor, none)
    else if key = KEY_DC then
      (if cursor < buffer.length then buffer.eraseIdx cursor else buffer, cursor, none)
    else
      (buffer, cursor, some key)

/-- Feed a sequence of key events through `edit_field`, one per invocation
(the unconsumed-key output is dropped, as no caller re-feeds it here). -/
def editRun : List Int → List Char × Nat → List Char × Nat
  | [], st => st
  | k :: ks, st =>
    let r := edit_field st.1 st.2 (some k)
    editRun ks (r.1, r.2.1)

/-- The ListModel cursor invariant: `0` on an empty list, a valid index
otherwise. -/
def cursorInv (list : List Title) (c : Nat) : Bool :=
  if list.isEmpty then c == 0 else decide (c < list.length)

/-- A navigation call: `list_up` or `list_down`. -/
inductive NavOp where
  | up
  | down
deriving DecidableEq, Repr

/-- Apply one navigation call to the cursor. -/
def applyNav (list : List Title) (c : Nat) : NavOp → Nat
  | .up => list_up c
  | .down => list_down list c

/-- Run a sequence of navigation calls. -/
def navRun (list : List Title) (c : Nat) : List NavOp → Nat
  | [] => c
  | op :: rest => navRun list (applyNav list c op) rest

/-- The mutable state of `fn main`'s frame loop (drawing-only state such as
the screen size is omitted). -/
structure AppState where
  todos : List Title
  todo_curr : Nat
  dones : List Title
  done_curr : Nat
  panel : Status
  editing : Bool
  editing_cursor : Nat
  notification : List Char
  quit : Bool
deriving DecidableEq, Repr

/-- `key as u8 as char` in the dispatch `match`es: the key code truncated
to its low byte. -/
def keyChar (key : Int) : Int :=
  key % 256

/-- The item row at `todo_curr` in the Todo panel (only reached when the
cursor indexes an item): in edit mode run `edit_field` and leave edit mode
on an unconsumed Enter (the `take()` drops any other unconsumed key);
otherwise `'r'` enters edit mode with the cursor at the end of the text. -/
def todoItemRow (s : AppState) (key : Option Int) : AppState × Option Int :=
  if h : s.todo_curr < s.todos.length then
    if s.editing then
      let r := edit_field (s.todos.get ⟨s.todo_curr, h⟩) s.editing_cursor key
      let s' := { s with todos := s.todos.set s.todo_curr r.1, editing_cursor := r.2.1 }
      match r.2.2 with
      | some k => (if keyChar k = 10 then { s' with editing := false } else s', none)
      | none => (s', none)
    else
      match key with
      | some k =>
        if keyChar k = 114 then
          ({ s with
              editing := true
              editing_cursor := (s.todos.get ⟨s.todo_curr, h⟩).length }, none)
        else
          (s, some k)
      | none => (s, none)
  else
    (s, key)

/-- The Todo panel's key `match` (`'K' 'J' 'k' 'j' 'g' 'G' '\n' '\t'`); an
unmatched key is put back. `none` models a `slice::swap` panic. -/
def todoKeyCommands (s : AppState) (key : Option Int) : Option (AppState × Option Int) :=
  match key with
  | none => some (s, none)
  | some k =>
    let c := keyChar k
    if c = 75 then
      (list_drag_up s.todos s.todo_curr).map fun r =>
        ({ s with todos := r.1, todo_curr := r.2 }, none)
    else if c = 74 then
      (list_drag_down s.todos s.todo_curr).map fun r =>
        ({ s with todos := r.1, todo_curr := r.2 }, none)
    else if c = 107 then
      some ({ s with todo_curr := list_up s.todo_curr }, none)
    else if c = 106 then
      some ({ s with todo_curr := list_down s.todos s.todo_curr }, none)
    else if c = 103 then
      some ({ s with todo_curr := list_first s.todo_curr }, none)
    else if c = 71 then
      some ({ s with todo_curr := list_last s.todos s.todo_curr }, none)
    else if c = 10 then
      let r := list_transfer s.dones s.todos s.todo_curr
      some ({ s with
        dones := r.1
        todos := r.2.1
        todo_curr := r.2.2
        notification := s.notification ++ "DONE!".toList }, none)
    else if c = 9 then
      some ({ s with panel := s.panel.toggle }, none)
    else
      some (s, some k)

/-- The whole Todo column of the frame: item rows then the key `match`,
active only when the Todo panel has focus. -/
def todoPanelStep (s : AppState) (key : Option Int) : Option (AppState × Option Int) :=
  if s.panel = Status.Todo then
    let ri := todoItemRow s key
    todoKeyCommands ri.1 ri.2
  else
    some (s, key)

/-- The item row at `done_curr` in the Done panel; same shape as the Todo
row. -/
def doneItemRow (s : AppState) (key : Option Int) : AppState × Option Int :=
  if h : s.done_curr < s.dones.length then
    if s.editing then
      let r := edit_field (s.dones.get ⟨s.done_curr, h⟩) s.editing_cursor key
      let s' := { s with dones := s.dones.set s.done_curr r.1, editing_cursor := r.2.1 }
      match r.2.2 with
      | some k => (if keyChar k = 10 then { s' with editing := false } else s', none)
      | none => (s', none)
    else
      match key with
      | some k =>
        if keyChar k = 114 then
          ({ s with
              editing := true
              editing_cursor := (s.dones.get ⟨s.done_curr, h⟩).length }, none)
        else
          (s, some k)
      | none => (s, none)
  else
    (s, key)

/-- The Done panel's key `match`: like the Todo panel's, plus the `'d'`
delete binding, with the transfer running Done → Todo. -/
def doneKeyCommands (s : AppState) (key : Option Int) : Option (AppState × Option Int) :=
  match key with
  | none => some (s, none)
  | some k =>
    let c := keyChar k
    if c = 75 then
      (list_drag_up s.dones s.done_curr).map fun r =>
        ({ s with dones := r.1, done_curr := r.2 }, none)
    else if c = 74 then
      (list_drag_down s.dones s.done_curr).map fun r =>
        ({ s with dones := r.1, done_curr := r.2 }, none)
    else if c = 107 then
      some ({ s with done_curr := list_up s.done_curr }, none)
    else if c = 106 then
      some ({ s with done_curr := list_down s.dones s.done_curr }, none)
    else if c = 103 then
      some ({ s with done_curr := list_first s.done_curr }, none)
    else if c = 71 then
      some ({ s with done_curr := list_last s.dones s.done_curr }, none)
    else if c = 100 then
      let r := list_delete s.dones s.done_curr
      some ({ s with
        dones := r.1
        done_curr := r.2
        notification := s.notification ++ "Into The Abyss!".toList }, none)
    else if c = 10 then
      let r := list_transfer s.todos s.dones s.done_curr
      some ({ s with
        todos := r.1
        dones := r.2.1
        done_curr := r.2.2
        notification := s.notification ++ "No, not done yet...".toList }, none)
    else if c = 9 then
      some ({ s with panel := s.panel.toggle }, none)
    else
      some (s, some k)

/-- The whole Done column of the frame, active only when the Done panel has
focus (checked after the Todo column may have toggled the panel). -/
def donePanelStep (s : AppState) (key : Option Int) : Option (AppState × Option Int) :=
  if s.panel = Status.Done then
    let ri := doneItemRow s key
    doneKeyCommands ri.1 ri.2
  else
    some (s, key)

/-- The end-of-frame quit check: `key_current.take()` always removes the
key; only `'q'` sets `quit`, anything else is simply discarded. -/
def quitStep (s : AppState) (key : Option Int) : AppState :=
  match key with
  | some k => if keyChar k = 113 then { s with quit := true } else s
  | none => s

/-- One frame of `fn main`'s key dispatch: Todo column, Done column, quit
check; `none` models a panic inside a handler. -/
def frameDispatch (s : AppState) (key : Option Int) : Option AppState := do
  let r1 ← todoPanelStep s key
  let r2 ← donePanelStep r1.1 r1.2
  pure (quitStep r2.1 r2.2)

lemma runOps_append (a b : List UiOp) (ui : Ui) :
    runOps (a ++ b) ui = (runOps a ui).bind (runOps b) := by
  induction a generalizing ui with
  | nil => rfl
  | cons op rest ih =>
    simp only [List.cons_append, runOps]
    cases applyOp ui op with
    | none => rfl
    | some ui' => simpa using ih ui'

lemma runOps_beginLayouts (kinds : List LayoutKind) :
    ∀ ui : Ui, ui.layouts ≠ [] →
      ∃ ui' : Ui, runOps (kinds.map UiOp.opBeginLayout) ui = some ui' ∧
        ui'.layouts.length = ui.layouts.length + kinds.length := by
  induction kinds with
  | nil => intro ui _; exact ⟨ui, rfl, by simp⟩
  | cons kind rest ih =>
    intro ui hne
    obtain ⟨top, tail, htop⟩ := List.exists_cons_of_ne_nil hne
    have hstep : ui.begin_layout kind =
        some ⟨{ kind := kind, pos := top.available_pos, size := Vec2.new 0 0 } :: ui.layouts⟩ := by
      simp [Ui.begin_layout, htop]
    obtain ⟨ui', hrun, hlen⟩ :=
      ih ⟨{ kind := kind, pos := top.available_pos, size := Vec2.new 0 0 } :: ui.layouts⟩
        (by simp)
    refine ⟨ui', ?_, ?_⟩
    · simp [runOps, applyOp, hstep, hrun]
    · simp only [hlen]
      simp [List.length_cons]
      omega

lemma runOps_labels (labels : List (Title × Int)) :
    ∀ ui : Ui, ui.layouts ≠ [] →
      ∃ ui' : Ui, runOps (labels.map (fun lw => UiOp.opLabel lw.1 lw.2)) ui = some ui' ∧
        ui'.layouts.length = ui.layouts.length := by
  induction labels with
  | nil => intro ui _; exact ⟨ui, rfl, rfl⟩
  | cons lw rest ih =>
    intro ui hne
    obtain ⟨top, tail, htop⟩ := List.exists_cons_of_ne_nil hne
    have hstep : ui.label_fixed_width lw.1 lw.2 =
        some ⟨top.add_widget (Vec2.new lw.2 1) :: tail⟩ := by
      simp [Ui.label_fixed_width, htop]
    obtain ⟨ui', hrun, hlen⟩ := ih ⟨top.add_widget (Vec2.new lw.2 1) :: tail⟩ (by simp)
    refine ⟨ui', ?_, ?_⟩
    · simp [runOps, applyOp, hstep, hrun]
    · simp only [hlen, htop]
      simp

lemma runOps_endLayouts (n : Nat) :
    ∀ ui : Ui, n < ui.layouts.length →
      ∃ ui' : Ui, runOps (List.replicate n UiOp.opEndLayout) ui = some ui' ∧
        ui'.layouts.length = ui.layouts.length - n := by
  induction n with
  | zero => intro ui _; exact ⟨ui, rfl, rfl⟩
  | succ m ih =>
    intro ui hlt
    match hl : ui.layouts with
    | [] => rw [hl] at hlt; simp at hlt
    | [_] => rw [hl] at hlt; simp at hlt
    | top :: next :: rest =>
      have hstep : ui.end_layout = some ⟨next.add_widget top.size :: rest⟩ := by
        simp [Ui.end_layout, hl]
      have hlt' : m < (next.add_widget top.size :: rest).length := by
        rw [hl] at hlt; simpa using Nat.lt_of_succ_lt_succ hlt
      obtain ⟨ui', hrun, hlen⟩ := ih ⟨next.add_widget top.size :: rest⟩ hlt'
      refine ⟨ui', ?_, ?_⟩
      · simp [List.replicate_succ, runOps, applyOp, hstep, hrun]
      · simp only [hlen, hl]
        simp

lemma runOps_balanced (pos : Vec2) (kind : LayoutKind) (kinds : List LayoutKind)
    (labels : List (Title × Int)) :
    runOps (balancedOps pos kind kinds labels) uiDefault = some uiDefault := by
  have hbegin : uiDefault.begin pos kind =
      some ⟨[{ kind := kind, pos := pos, size := Vec2.new 0 0 }]⟩ := by
    simp [Ui.begin, uiDefault]
  obtain ⟨u2, h2, hl2⟩ :=
    runOps_beginLayouts kinds ⟨[{ kind := kind, pos := pos, size := Vec2.new 0 0 }]⟩ (by simp)
  have hu2ne : u2.layouts ≠ [] := by
    have : 0 < u2.layouts.length := by simp [hl2]
    exact List.length_pos.mp this
  obtain ⟨u3, h3, hl3⟩ := runOps_labels labels u2 hu2ne
  have hlt : kinds.length < u3.layouts.length := by
    rw [hl3, hl2]; simp
  obtain ⟨u4, h4, hl4⟩ := runOps_endLayouts kinds.length u3 hlt
  have hone : u4.layouts.length = 1 := by
    rw [hl4, hl3, hl2]; simp
  obtain ⟨a, ha⟩ := List.length_eq_one.mp hone
  have hend : u4.endFrame = some uiDefault := by
    simp [Ui.endFrame, ha, uiDefault]
  simp [balancedOps, runOps_append, runOps, applyOp, hbegin, h2, h3, h4, hend]

/-- C1 counterexample: `begin` followed by `begin_layout` on a fresh `Ui`
yields a stack of two layouts, and yet `Ui::end` succeeds on it, contrary
to the claim that `end()` raises `InvalidState` whenever the stack holds
two or more layouts. -/
theorem end_succeeds_on_two_layouts :
    runOps [UiOp.opBegin (Vec2.new 0 0) LayoutKind.Vert,
      UiOp.opBeginLayout LayoutKind.Horz] uiDefault = some uiTwoLayouts
    ∧ uiTwoLayouts.layouts.length = 2
    ∧ (uiTwoLayouts.endFrame).isSome = true := by
  decide

/-- C1 (amended): `Ui::end` fails (models `InvalidState`) exactly when the
layout stack is empty; on any non-empty stack — including stacks of two or
more layouts — it succeeds, popping the top layout and discarding its size. -/
theorem end_fails_iff_empty (u : Ui) :
    u.endFrame = if u.layouts.isEmpty then none else some ⟨u.layouts.tail⟩ := by
  obtain ⟨ls⟩ := u
  cases ls with
  | nil => rfl
  | cons top rest => rfl

/-- C2: on a fresh `Ui`, every balanced frame sequence — one `begin`, `m`
`begin_layout`s, `k` `label_fixed_width`s, `m` `end_layout`s, one `end` —
runs without raising `InvalidState`; appending an extra `end`, or dropping
the leading `begin`, makes the sequence fail. -/
theorem balanced_ok_unbalanced_fails (pos : Vec2) (kind : LayoutKind)
    (kinds : List LayoutKind) (labels : List (Title × Int)) :
    (runOps (balancedOps pos kind kinds labels) uiDefault).isSome = true
    ∧ runOps (balancedOps pos kind kinds labels ++ [UiOp.opEnd]) uiDefault = none
    ∧ runOps (noBeginOps kinds labels) uiDefault = none := by
  refine ⟨?_, ?_, ?_⟩
  · rw [runOps_balanced]; rfl
  · rw [runOps_append, runOps_balanced]
    simp [runOps, applyOp, Ui.endFrame, uiDefault]
  · cases kinds with
    | cons k rest =>
      simp [noBeginOps, runOps, applyOp, Ui.begin_layout, uiDefault]
    | nil =>
      cases labels with
      | cons lw rest =>
        simp [noBeginOps, runOps, applyOp, Ui.label_fixed_width, uiDefault]
      | nil =>
        simp [noBeginOps, runOps, applyOp, Ui.endFrame, uiDefault]

lemma applyNav_inv (list : List Title) (c : Nat) (op : NavOp)
    (h : cursorInv list c = true) : cursorInv list (applyNav list c op) = true := by
  cases op with
  | up =>
    by_cases he : list.isEmpty
    · simp [applyNav, list_up, cursorInv, he] at h ⊢
      subst h
      simp
    · simp [applyNav, list_up, cursorInv, he] at h ⊢
      split <;> omega
  | down =>
    by_cases he : list.isEmpty
    · simp [applyNav, list_down, cursorInv, he] at h ⊢
      subst h
      have : list.length = 0 := by simpa using List.isEmpty_iff_length_eq_zero.mp he
      simp [this]
    · simp [applyNav, list_down, cursorInv, he] at h ⊢
      split <;> omega

/-- C3: any sequence of `list_up` / `list_down` calls preserves the
ListModel cursor invariant, so the cursor stays in `[0, n-1]` on a list of
length `n` (and stays `0` on an empty list). -/
theorem navRun_preserves_invariant (list : List Title) (c : Nat) (ops : List NavOp)
    (h : cursorInv list c = true) : cursorInv list (navRun list c ops) = true := by
  induction ops generalizing c with
  | nil => exact h
  | cons op rest ih => exact ih (applyNav list c op) (applyNav_inv list c op h)

/-- C3 witness: a concrete two-item list, cursor 0, with a concrete
navigation sequence. -/
theorem navRun_preserves_invariant_witness :
    cursorInv [['a'], ['b']] (navRun [['a'], ['b']] 0 [NavOp.down, NavOp.down, NavOp.up]) = true :=
  navRun_preserves_invariant [['a'], ['b']] 0 [NavOp.down, NavOp.down, NavOp.up] (by decide)

lemma getD_cons_eraseIdx_perm (l : List Title) (i : Nat) (h : i < l.length) :
    (l.getD i [] :: l.eraseIdx i).Perm l := by
  induction l generalizing i with
  | nil => simp at h
  | cons a t ih =>
    cases i with
    | zero => simp [List.eraseIdx]
    | succ n =>
      have hn : n < t.length := by simpa using h
      have hget : (a :: t).getD (n + 1) [] = t.getD n [] := by
        simp [List.getD_cons_succ]
      rw [hget, List.eraseIdx_cons_succ]
      exact (List.Perm.swap a (t.getD n []) (t.eraseIdx n)).trans ((ih n hn).cons a)

lemma list_transfer_eq (dst src : List Title) (c : Nat) (h : c < src.length) :
    (list_transfer dst src c).1 = dst ++ [src.getD c []]
    ∧ (list_transfer dst src c).2.1 = src.eraseIdx c := by
  have hget : src.get ⟨c, h⟩ = src.getD c [] := (List.getD_eq_getElem src [] h).symm
  simp only [list_transfer, dif_pos h, hget]
  simp

/-- C4: transferring the item under a valid source cursor to the
destination and then, with the destination cursor on that appended item,
transferring it back, restores the destination exactly and restores the
source's contents with the moved item appended at the end (same multiset,
append-at-end order). -/
theorem transfer_roundtrip (dst src : List Title) (c : Nat) (h : c < src.length) :
    let r1 := list_transfer dst src c
    let r2 := list_transfer r1.2.1 r1.1 dst.length
    r2.1 = src.eraseIdx c ++ [src.getD c []]
    ∧ r2.2.1 = dst
    ∧ r2.1.Perm src := by
  intro r1 r2
  obtain ⟨hd1, hs1⟩ := list_transfer_eq dst src c h
  have hc2 : dst.length < r1.1.length := by
    rw [hd1]
    simp
  obtain ⟨hd2, hs2⟩ := list_transfer_eq r1.2.1 r1.1 dst.length hc2
  have hget2 : r1.1.getD dst.length [] = src.getD c [] := by
    rw [hd1]
    rw [List.getD_eq_getElem _ [] (by simp)]
    exact List.getElem_concat_length dst (src.getD c []) dst.length rfl _
  have herase2 : r1.1.eraseIdx dst.length = dst := by
    rw [hd1, List.eraseIdx_append_of_length_le (Nat.le_refl dst.length)]
    simp
  refine ⟨?_, ?_, ?_⟩
  · rw [hd2, hget2, hs1]
  · rw [hs2, herase2]
  · rw [hd2, hget2, hs1]
    exact (List.perm_append_comm).trans (getD_cons_eraseIdx_perm src c h)

/-- C4 witness: transferring the head of `[a, b]` into `[x]` and back. -/
theorem transfer_roundtrip_witness :
    (0 < ([['a'], ['b']] : List Title).length) ∧
      (let r1 := list_transfer [['x']] [['a'], ['b']] 0
       let r2 := list_transfer r1.2.1 r1.1 ([['x']] : List Title).length
       r2.1 = ([['a'], ['b']] : List Title).eraseIdx 0 ++ [([['a'], ['b']] : List Title).getD 0 []]
       ∧ r2.2.1 = [['x']]
       ∧ r2.1.Perm [['a'], ['b']]) :=
  ⟨by decide, transfer_roundtrip [['x']] [['a'], ['b']] 0 (by decide)⟩

/-- C10: `list_transfer` with a valid source cursor appends the moved item
at the destination's end, removes it from its source position, and
preserves the combined multiset (hence the total count) of the two lists. -/
theorem transfer_conserves_items (dst src : List Title) (c : Nat) (h : c < src.length) :
    (list_transfer dst src c).1 = dst ++ [src.getD c []]
    ∧ (list_transfer dst src c).2.1 = src.eraseIdx c
    ∧ ((list_transfer dst src c).1 ++ (list_transfer dst src c).2.1).Perm (dst ++ src) := by
  obtain ⟨hd, hs⟩ := list_transfer_eq dst src c h
  refine ⟨hd, hs, ?_⟩
  rw [hd, hs, List.append_assoc]
  exact List.Perm.append_left dst (getD_cons_eraseIdx_perm src c h)

/-- C10 witness: transferring the middle of a three-item list into `[x]`. -/
theorem transfer_conserves_items_witness :
    (1 < ([['a'], ['b'], ['c']] : List Title).length) ∧
      ((list_transfer [['x']] [['a'], ['b'], ['c']] 1).1
          = [['x']] ++ [([['a'], ['b'], ['c']] : List Title).getD 1 []]
        ∧ (list_transfer [['x']] [['a'], ['b'], ['c']] 1).2.1
          = ([['a'], ['b'], ['c']] : List Title).eraseIdx 1
        ∧ ((list_transfer [['x']] [['a'], ['b'], ['c']] 1).1
            ++ (list_transfer [['x']] [['a'], ['b'], ['c']] 1).2.1).Perm
            ([['x']] ++ [['a'], ['b'], ['c']])) :=
  ⟨by decide, transfer_conserves_items [['x']] [['a'], ['b'], ['c']] 1 (by decide)⟩

lemma listSwap_length (l : List Title) (i j : Nat) : (listSwap l i j).length = l.length := by
  simp [listSwap]

lemma listSwap_getElem (l : List Title) (i j : Nat) (hi : i < l.length) (hj : j < l.length)
    (k : Nat) (hk : k < (listSwap l i j).length) :
    (listSwap l i j)[k] =
      if j = k then l.get ⟨i, hi⟩ else if i = k then l.get ⟨j, hj⟩
      else l.get ⟨k, by simpa [listSwap] using hk⟩ := by
  simp only [List.get_eq_getElem, listSwap, List.getElem_set, List.getD_eq_getElem l [] hi,
    List.getD_eq_getElem l [] hj]

lemma listSwap_listSwap (l : List Title) (i j : Nat) (hi : i < l.length) (hj : j < l.length)
    (hij : i ≠ j) : listSwap (listSwap l i j) j i = l := by
  apply List.ext_getElem
  · simp [listSwap]
  · intro k hk1 hk2
    have hj' : j < (listSwap l i j).length := by simpa [listSwap] using hj
    have hi' : i < (listSwap l i j).length := by simpa [listSwap] using hi
    rw [listSwap_getElem _ j i hj' hi' k hk1]
    by_cases hik : i = k
    · subst hik
      simp [listSwap_getElem l i j hi hj, hij]
    · by_cases hjk : j = k
      · subst hjk
        simp [listSwap_getElem l i j hi hj, hij, Ne.symm hij]
      · simp [hik, hjk, listSwap_getElem l i j hi hj]

/-- C8: on a list with a valid cursor, `list_drag_up` followed by
`list_drag_down` restores the original ordering and cursor whenever the
cursor is positive; at the boundaries, `list_drag_up` at cursor `0` and
`list_drag_down` at cursor `len - 1` are no-ops on both the list and the
cursor. -/
theorem drag_up_down_roundtrip (l : List Title) (i : Nat) :
    (0 < i → i < l.length →
      (list_drag_up l i).bind (fun r => list_drag_down r.1 r.2) = some (l, i))
    ∧ list_drag_up l 0 = some (l, 0)
    ∧ list_drag_down l (l.length - 1) = some (l, l.length - 1) := by
  refine ⟨?_, ?_, ?_⟩
  · intro hpos hlt
    have hup : list_drag_up l i = some (listSwap l i (i - 1), i - 1) := by
      simp [list_drag_up, hpos, hlt]
    have hcond : (i - 1) + 1 < (listSwap l i (i - 1)).length := by
      rw [listSwap_length]
      omega
    have hsucc : (i - 1) + 1 = i := by omega
    rw [hup]
    show list_drag_down (listSwap l i (i - 1)) (i - 1) = some (l, i)
    rw [list_drag_down, if_pos hcond, hsucc,
      listSwap_listSwap l i (i - 1) hlt (by omega) (by omega)]
  · simp [list_drag_up]
  · have : ¬ ((l.length - 1) + 1 < l.length) := by omega
    simp [list_drag_down, this]

/-- C8 witness: dragging the middle item of a three-item list up and then
down restores the list and cursor. -/
theorem drag_up_down_roundtrip_witness :
    (list_drag_up [['a'], ['b'], ['c']] 1).bind (fun r => list_drag_down r.1 r.2)
      = some ([['a'], ['b'], ['c']], 1) :=
  (drag_up_down_roundtrip [['a'], ['b'], ['c']] 1).1 (by decide) (by decide)

lemma dropPfx_append (p t : List Char) : dropPfx p (p ++ t) = some t := by
  induction p with
  | nil => rfl
  | cons c cs ih => simp [dropPfx, ih]

lemma parse_item_todo (t : List Char) :
    parse_item (todoPrefixChars ++ t) = some (Status.Todo, t) := by
  simp [parse_item, dropPfx_append, Option.or]

lemma parse_item_done (t : List Char) :
    parse_item (donePrefixChars ++ t) = some (Status.Done, t) := by
  have hnone : dropPfx todoPrefixChars (donePrefixChars ++ t) = none := by
    simp [todoPrefixChars, donePrefixChars, dropPfx]
  simp [parse_item, hnone, dropPfx_append, Option.or]

lemma splitNewlines_line (l : List Char) (rest : List Char) (h : '\n' ∉ l) :
    splitNewlines (l ++ '\n' :: rest) = l :: splitNewlines rest := by
  induction l with
  | nil => simp [splitNewlines]
  | cons c cs ih =>
    have hc : c ≠ '\n' := fun hc => h (hc ▸ List.mem_cons_self c cs)
    have hcs : '\n' ∉ cs := fun hm => h (List.mem_cons_of_mem c hm)
    simp only [List.cons_append, splitNewlines, if_neg hc, List.append_eq, ih hcs]

lemma splitNewlines_flatten (ls : List (List Char)) (h : ∀ l ∈ ls, '\n' ∉ l) :
    splitNewlines ((ls.map (· ++ ['\n'])).flatten) = ls := by
  induction ls with
  | nil => rfl
  | cons l rest ih =>
    have hl : '\n' ∉ l := h l (List.mem_cons_self l rest)
    have hrest : ∀ x ∈ rest, '\n' ∉ x := fun x hx => h x (List.mem_cons_of_mem l hx)
    simp only [List.map_cons, List.flatten_cons, List.append_assoc, List.singleton_append]
    rw [splitNewlines_line l _ hl, ih hrest]

lemma stripCR_of_not_cr (l : List Char) (h : l.getLast? ≠ some '\r') : stripCR l = l := by
  simp [stripCR, h]

lemma getLast?_pfx_append (p : List Char) (hp : p.getLast? = some ' ') (t : List Char)
    (ht : t.getLast? ≠ some '\r') : (p ++ t).getLast? ≠ some '\r' := by
  rw [List.getLast?_append]
  cases hlast : t.getLast? with
  | none => simp [hlast, Option.or, hp]
  | some c =>
    rw [hlast] at ht
    simp only [Option.or]
    exact ht

lemma linesOf_save (todos dones : List Title)
    (hn : ∀ t ∈ todos ++ dones, '\n' ∉ t)
    (hr : ∀ t ∈ todos ++ dones, t.getLast? ≠ some '\r') :
    linesOf (save_state todos dones)
      = todos.map (todoPrefixChars ++ ·) ++ dones.map (donePrefixChars ++ ·) := by
  have hfile : save_state todos dones =
      (((todos.map (todoPrefixChars ++ ·) ++ dones.map (donePrefixChars ++ ·)).map
        (· ++ ['\n'])).flatten) := by
    simp [save_state, List.map_map, Function.comp_def, List.append_assoc]
  have hsplit : splitNewlines (save_state todos dones)
      = todos.map (todoPrefixChars ++ ·) ++ dones.map (donePrefixChars ++ ·) := by
    rw [hfile]
    apply splitNewlines_flatten
    intro l hl
    rcases List.mem_append.mp hl with hml | hml
    · obtain ⟨t, htmem, rfl⟩ := List.mem_map.mp hml
      intro hmem
      rcases List.mem_append.mp hmem with hin | hin
      · simp [todoPrefixChars] at hin
      · exact hn t (List.mem_append.mpr (Or.inl htmem)) hin
    · obtain ⟨t, htmem, rfl⟩ := List.mem_map.mp hml
      intro hmem
      rcases List.mem_append.mp hmem with hin | hin
      · simp [donePrefixChars] at hin
      · exact hn t (List.mem_append.mpr (Or.inr htmem)) hin
  rw [linesOf, hsplit]
  refine (List.map_congr_left ?_).trans (List.map_id _)
  intro l hl
  rcases List.mem_append.mp hl with hml | hml
  · obtain ⟨t, htmem, rfl⟩ := List.mem_map.mp hml
    exact stripCR_of_not_cr _
      (getLast?_pfx_append todoPrefixChars (by simp [todoPrefixChars]) t
        (hr t (List.mem_append.mpr (Or.inl htmem))))
  · obtain ⟨t, htmem, rfl⟩ := List.mem_map.mp hml
    exact stripCR_of_not_cr _
      (getLast?_pfx_append donePrefixChars (by simp [donePrefixChars]) t
        (hr t (List.mem_append.mpr (Or.inr htmem))))

lemma loadLines_todoLines (path : List Char) (ts : List Title) :
    ∀ (rest : List (List Char)) (i : Nat) (todos dones : List Title),
      loadLines path (ts.map (todoPrefixChars ++ ·) ++ rest) i todos dones
        = loadLines path rest (i + ts.length) (todos ++ ts) dones := by
  induction ts with
  | nil => intro rest i todos dones; simp
  | cons t ts ih =>
    intro rest i todos dones
    simp only [List.map_cons, List.cons_append, loadLines, parse_item_todo, List.append_eq]
    rw [ih rest (i + 1) (todos ++ [t]) dones]
    simp only [List.append_assoc, List.singleton_append, List.length_cons]
    congr 1
    omega

lemma loadLines_doneLines (path : List Char) (ts : List Title) :
    ∀ (i : Nat) (todos dones : List Title),
      loadLines path (ts.map (donePrefixChars ++ ·)) i todos dones
        = .ok (todos, dones ++ ts) := by
  induction ts with
  | nil => intro i todos dones; simp [loadLines]
  | cons t ts ih =>
    intro i todos dones
    simp only [List.map_cons, loadLines, parse_item_done]
    rw [ih (i + 1) todos (dones ++ [t])]
    simp

/-- C5 counterexample: a title ending in a carriage return contains no
newline, yet the save/load round-trip drops the `'\r'` (CRLF stripping in
`BufRead::lines`), so the loaded todo list differs from the original. -/
theorem save_load_cr_counterexample :
    load_state [] [] [] (save_state [['a', '\r']] []) = Except.ok ([['a']], [])
    ∧ load_state [] [] [] (save_state [['a', '\r']] []) ≠ Except.ok ([['a', '\r']], []) := by
  constructor
  · decide
  · decide

/-- C5 (amended): for todo and done lists whose titles contain no newline
and do not end with a carriage return, `save_state` followed by
`load_state` (on empty accumulators) reproduces both lists exactly, and the
saved file holds all todo lines before all done lines under the two
prefixes. -/
theorem save_load_roundtrip (todos dones : List Title) (path : List Char)
    (hn : ∀ t ∈ todos ++ dones, '\n' ∉ t)
    (hr : ∀ t ∈ todos ++ dones, t.getLast? ≠ some '\r') :
    load_state [] [] path (save_state todos dones) = .ok (todos, dones)
    ∧ linesOf (save_state todos dones)
      = todos.map (todoPrefixChars ++ ·) ++ dones.map (donePrefixChars ++ ·) := by
  have hlines := linesOf_save todos dones hn hr
  refine ⟨?_, hlines⟩
  rw [load_state, hlines, loadLines_todoLines path todos _ 0 [] [],
    loadLines_doneLines path dones (0 + todos.length) ([] ++ todos) []]
  simp

/-- C5 witness: a one-item todo list and a one-item done list round-trip. -/
theorem save_load_roundtrip_witness :
    load_state [] [] [] (save_state [['m']] [['s']]) = .ok ([['m']], [['s']])
    ∧ linesOf (save_state [['m']] [['s']])
      = ([['m']] : List Title).map (todoPrefixChars ++ ·)
        ++ ([['s']] : List Title).map (donePrefixChars ++ ·) :=
  save_load_roundtrip [['m']] [['s']] [] (by decide) (by decide)

lemma loadLines_error (path : List Char) (bad : List Char) (rest : List (List Char))
    (hbad : parse_item bad = none) (good : List (List Char))
    (hgood : ∀ l ∈ good, (parse_item l).isSome) :
    ∀ (i : Nat) (todos dones : List Title),
      loadLines path (good ++ bad :: rest) i todos dones
        = .error (.illFormed path (i + good.length + 1)) := by
  induction good with
  | nil =>
    intro i todos dones
    simp [loadLines, hbad]
  | cons g gs ih =>
    intro i todos dones
    have hg : (parse_item g).isSome := hgood g (List.mem_cons_self g gs)
    obtain ⟨⟨st, title⟩, hsome⟩ := Option.isSome_iff_exists.mp hg
    have hgs : ∀ l ∈ gs, (parse_item l).isSome :=
      fun l hl => hgood l (List.mem_cons_of_mem g hl)
    cases st with
    | Todo =>
      simp only [List.cons_append, loadLines, hsome, List.append_eq]
      rw [ih hgs (i + 1) (todos ++ [title]) dones]
      congr 1
      simp
      omega
    | Done =>
      simp only [List.cons_append, loadLines, hsome, List.append_eq]
      rw [ih hgs (i + 1) todos (dones ++ [title])]
      congr 1
      simp
      omega

/-- C6: when the file's lines are some well-formed lines followed by a line
matching neither prefix, `load_state` aborts with the ill-formed-line error
carrying the file path and the 1-based number of the offending line,
returning no lists at all (no partial import), whatever the accumulators. -/
theorem load_malformed_reports_line (todos dones : List Title) (path file : List Char)
    (good : List (List Char)) (bad : List Char) (rest : List (List Char))
    (hsplit : linesOf file = good ++ bad :: rest)
    (hgood : ∀ l ∈ good, (parse_item l).isSome)
    (hbad : parse_item bad = none) :
    load_state todos dones path file = .error (.illFormed path (good.length + 1)) := by
  rw [load_state, hsplit, loadLines_error path bad rest hbad good hgood 0 todos dones]
  congr 1
  simp

/-- C6 witness: a file whose first line parses and whose second line is
ill-formed is rejected as `path:2`. -/
theorem load_malformed_reports_line_witness :
    load_state [] [] ['f'] ("TODO: a".toList ++ '\n' :: "xxx".toList ++ ['\n'])
      = .error (.illFormed ['f'] 2) :=
  load_malformed_reports_line [] [] ['f'] _ ["TODO: a".toList] "xxx".toList []
    (by decide) (by decide) (by decide)

lemma editRun_append (a b : List Int) : ∀ st, editRun (a ++ b) st = editRun b (editRun a st) := by
  induction a with
  | nil => intro st; rfl
  | cons k ks ih => intro st; simp only [List.cons_append, editRun, List.append_eq, ih]

lemma edit_insert_at_end (buffer : List Char) (k : Int) (h1 : 32 ≤ k) (h2 : k ≤ 126) :
    edit_field buffer buffer.length (some k)
      = (buffer ++ [Char.ofNat k.toNat], buffer.length + 1, none) := by
  simp [edit_field, h1, h2]

lemma editRun_inserts (ks : List Int) :
    ∀ buffer : List Char, (∀ k ∈ ks, 32 ≤ k ∧ k ≤ 126) →
      editRun ks (buffer, buffer.length)
        = (buffer ++ ks.map (fun k => Char.ofNat k.toNat), buffer.length + ks.length) := by
  induction ks with
  | nil => intro buffer _; simp [editRun]
  | cons k ks ih =>
    intro buffer h
    have hk := h k (List.mem_cons_self k ks)
    have hks : ∀ k' ∈ ks, 32 ≤ k' ∧ k' ≤ 126 :=
      fun k' hk' => h k' (List.mem_cons_of_mem k hk')
    simp only [editRun]
    rw [edit_insert_at_end buffer k hk.1 hk.2]
    rw [show buffer.length + 1 = (buffer ++ [Char.ofNat k.toNat]).length by simp]
    rw [ih (buffer ++ [Char.ofNat k.toNat]) hks]
    simp [List.append_assoc, Prod.ext_iff]
    omega

lemma edit_backspace_at_end (l : List Char) (y : Char) :
    edit_field (l ++ [y]) (l ++ [y]).length (some KEY_BACKSPACE)
      = (l, l.length, none) := by
  have herase : (l ++ [y]).eraseIdx l.length = l := by
    rw [List.eraseIdx_append_of_length_le (Nat.le_refl l.length)]
    simp
  have hlen : (l ++ [y]).length = l.length + 1 := by simp
  simp [edit_field, KEY_LEFT, KEY_RIGHT, KEY_BACKSPACE, KEY_DC, hlen, herase]

lemma editRun_backspaces (extra : List Char) :
    ∀ l : List Char,
      editRun (List.replicate extra.length KEY_BACKSPACE) (l ++ extra, (l ++ extra).length)
        = (l, l.length) := by
  induction extra using List.reverseRecOn with
  | nil => intro l; simp [editRun]
  | append_singleton ys y ih =>
    intro l
    rw [show (ys ++ [y]).length = ys.length + 1 by simp, List.replicate_succ]
    simp only [editRun]
    rw [show l ++ (ys ++ [y]) = (l ++ ys) ++ [y] by simp [List.append_assoc]]
    rw [edit_backspace_at_end (l ++ ys) y]
    exact ih l

/-- C7: with the cursor at end-of-buffer, typing `k` printable keys (ASCII
32–126) and then issuing `k` backspaces through `edit_field` returns the
buffer to its original content and the cursor to its original end-of-buffer
offset. -/
theorem insert_backspace_roundtrip (buffer : List Char) (ks : List Int)
    (h : ∀ k ∈ ks, 32 ≤ k ∧ k ≤ 126) :
    editRun (ks ++ List.replicate ks.length KEY_BACKSPACE) (buffer, buffer.length)
      = (buffer, buffer.length) := by
  rw [editRun_append, editRun_inserts ks buffer h]
  rw [show ks.length = (ks.map (fun k => Char.ofNat k.toNat)).length by simp]
  rw [show buffer.length + (ks.map (fun k => Char.ofNat k.toNat)).length
      = (buffer ++ ks.map (fun k => Char.ofNat k.toNat)).length by simp]
  exact editRun_backspaces (ks.map fun k => Char.ofNat k.toNat) buffer

/-- C7 witness: typing `"hi"` into the buffer `"x"` and backspacing twice. -/
theorem insert_backspace_roundtrip_witness :
    editRun ([104, 105] ++ List.replicate ([104, 105] : List Int).length KEY_BACKSPACE)
      (['x'], (['x'] : List Char).length) = (['x'], (['x'] : List Char).length) :=
  insert_backspace_roundtrip ['x'] [104, 105] (by decide)

/-- C9: with the Todo panel active and edit mode off, a `'d'` key event
(code 100) changes nothing in a frame: no handler in the Todo column binds
it, the Done column is inactive, and the end-of-frame `take()` discards it,
so the todos, dones, both cursors — the whole state — are unchanged. -/
theorem todo_panel_d_key_noop (s : AppState) (h1 : s.panel = Status.Todo)
    (h2 : s.editing = false) :
    frameDispatch s (some 100) = some s := by
  have hkc : keyChar 100 = 100 := by decide
  have hrow : todoItemRow s (some 100) = (s, some 100) := by
    unfold todoItemRow
    split
    · rw [h2]
      simp [hkc]
    · rfl
  have hcmds : todoKeyCommands s (some 100) = some (s, some 100) := by
    simp only [todoKeyCommands, hkc]
    norm_num
  have hdone : donePanelStep s (some 100) = some (s, some 100) := by
    rw [donePanelStep, h1]
    simp
  rw [frameDispatch, todoPanelStep, h1]
  simp [hrow, hcmds, hdone, quitStep, hkc]

/-- C9 witness: a concrete state with the Todo panel focused and editing
off; the `'d'` key leaves it untouched. -/
theorem todo_panel_d_key_noop_witness :
    frameDispatch
        { todos := [['a']], todo_curr := 0, dones := [['b']], done_curr := 0,
          panel := Status.Todo, editing := false, editing_cursor := 0,
          notification := [], quit := false } (some 100)
      = some
        { todos := [['a']], todo_curr := 0, dones := [['b']], done_curr := 0,
          panel := Status.Todo, editing := false, editing_cursor := 0,
          notification := [], quit := false } :=
  todo_panel_d_key_noop
    { todos := [['a']], todo_curr := 0, dones := [['b']], done_curr := 0,
      panel := Status.Todo, editing := false, editing_cursor := 0,
      notification := [], quit := false } rfl rfl

end TodoRs
